import Mathlib

/-!
Shallow embedding of the Supabase storage service
(src/src/services/supabaseStorageService.ts).

Conventions of the embedding:
- Each service method becomes a pure Lean function.  The single backend
  request a method issues is represented by a `BackendCall` value in the
  first component of the result (the call trace), and the response of the
  backend is passed in as an explicit `SupaResult` argument.
- A thrown JavaScript error is `SupaResult.thrown`; a non-null `error`
  field in the response object is `SupaResult.failure`; a possibly-null
  `data` field is an `Option`.
- `createError status msg` from the middleware becomes the `AppError`
  structure; fallible methods return `Except AppError α`.
- Sources of nondeterminism of the original code (`Date.now`,
  `Math.random`) are passed in as arguments (`timestamp`, `randomString`).
- The `try { } catch { }` split of each method is kept: the body of the
  `try` block is the `...Try` function, and the public function applies
  the `catch` clause to its error outcomes, exactly as the source does.
-/

/-- Error produced by the middleware helper `createError(status, message)`. -/
structure AppError where
  status : Nat
  message : String
deriving DecidableEq, Repr

/-- Error object returned in the `error` field of a Supabase response. -/
structure SupaError where
  message : String
deriving DecidableEq, Repr

/-- Outcome of one backend request: a non-null `error` field, a thrown
exception, or a successful `data` payload. -/
inductive SupaResult (α : Type) where
  | failure (e : SupaError)
  | thrown (msg : String)
  | success (data : α)
deriving DecidableEq, Repr

/-- The `metadata` sub-object of a listed storage object. -/
structure FileMeta where
  size : Nat
  mimetype : String
deriving DecidableEq, Repr

/-- One entry of a Supabase storage `list` response. -/
structure FileObject where
  name : String
  updated_at : String
  metadata : Option FileMeta
deriving DecidableEq, Repr

/-- Sort order requested from the backend listing endpoint. -/
inductive SortOrder where
  | asc
  | desc
deriving DecidableEq, Repr

/-- A request issued to the storage backend, as built by the service. -/
inductive BackendCall where
  | upload (bucket key : String) (body : List Nat)
      (contentType cacheControl : String) (upsert : Bool)
  | remove (bucket : String) (keys : List String)
  | createSignedUploadUrl (bucket key : String)
  | list (bucket path : String) (search : Option String)
      (limit : Option Nat) (sortBy : Option (String × SortOrder))
deriving DecidableEq, Repr

/-- Configuration resolved at startup from the environment
(`SUPABASE_URL`, `SUPABASE_BUCKET_NAME`). -/
structure StoreConfig where
  supabaseUrl : String
  bucketName : String
deriving DecidableEq, Repr

/-- The fields of an `Express.Multer.File` the service reads. -/
structure MulterFile where
  originalname : String
  mimetype : String
  size : Nat
  buffer : List Nat
deriving DecidableEq, Repr

/-- The `FileUploadOptions` interface; `none` is an absent field. -/
structure FileUploadOptions where
  folder : Option String := none
  allowedTypes : Option (List String) := none
  maxSize : Option Nat := none
  projectName : Option String := none
deriving DecidableEq, Repr

/-- The `UploadResult` interface. -/
structure UploadResult where
  url : String
  key : String
  bucket : String
  size : Nat
deriving DecidableEq, Repr

/-- Result shape of `getFileMetadata`. -/
structure FileMetadataResult where
  name : String
  size : Option Nat
  lastModified : String
  contentType : Option String
deriving DecidableEq, Repr

/-- Result shape of one `listProjectFiles` entry. -/
structure ListedFile where
  Key : String
  Size : Option Nat
  LastModified : String
deriving DecidableEq, Repr

/-- Default of `allowedTypes` in `uploadFile`. -/
def defaultAllowedTypes : List String :=
  ["image/jpeg", "image/png", "image/gif", "image/webp"]

/-- Default of `maxSize` in `uploadFile`: `5 * 1024 * 1024`. -/
def defaultMaxSize : Nat := 5 * 1024 * 1024

/-- Per-character step of the regex replace `/[^a-z0-9-]/g` with `-`. -/
def sanitizeChar (c : Char) : Char :=
  if (('a' ≤ c ∧ c ≤ 'z') ∨ ('0' ≤ c ∧ c ≤ '9') ∨ c = '-') then c else '-'

/-- Embeds the sanitization `projectName.toLowerCase().replace(regex)`:
lowercase each character, then replace each character outside `[a-z0-9-]`
with a hyphen. -/
def sanitizeProjectName (s : String) : String :=
  ⟨(s.data.map Char.toLower).map sanitizeChar⟩

/-- Whether `sub` occurs inside `s`; embeds `String.prototype.includes`. -/
def containsSubstr (s sub : String) : Bool :=
  decide (∃ t ∈ s.data.tails, sub.data <+: t)

/-- Embeds `key.substring(0, key.lastIndexOf(slash))` paired with
`key.substring(key.lastIndexOf(slash) + 1)`.  When the key has no slash,
`lastIndexOf` is `-1`, so the first part is empty and the second is the
whole key, as in JavaScript. -/
def lastSlashSplit (key : String) : String × String :=
  match (key.data.reverse).indexOf? '/' with
  | none => ("", key)
  | some r =>
      let i := key.data.length - 1 - r
      (⟨key.data.take i⟩, ⟨key.data.drop (i + 1)⟩)

/-- Embeds `file.originalname.split(dot).pop()`: the last piece of the
filename split on the dot character (the whole filename when it has no
dot). -/
def fileExtension (originalname : String) : String :=
  ⟨(originalname.data.splitOn '.').getLastD []⟩

/-- The generated object name `timestamp-randomString.fileExtension`. -/
def uploadedFileName (timestamp : Nat) (randomString originalname : String) :
    String :=
  toString timestamp ++ "-" ++ randomString ++ "." ++ fileExtension originalname

/-- Key construction of `uploadFile`: with a truthy `projectName` the key is
`sanitizedProjectName/folder/fileName`, otherwise `folder/fileName`. -/
def uploadKey (projectName : Option String) (folder fileName : String) :
    String :=
  match projectName with
  | some pn =>
      if pn = "" then folder ++ "/" ++ fileName
      else sanitizeProjectName pn ++ "/" ++ folder ++ "/" ++ fileName
  | none => folder ++ "/" ++ fileName

/-- Message of the invalid-type validation error. -/
def invalidTypeMessage (allowedTypes : List String) : String :=
  "Invalid file type. Allowed types: " ++ String.intercalate ", " allowedTypes

/-- Message of the too-large validation error (the division is exact in the
default case `5 MiB / 1 MiB = 5`, matching the JavaScript output). -/
def tooLargeMessage (maxSize : Nat) : String :=
  "File too large. Maximum size: " ++ toString (maxSize / (1024 * 1024)) ++ "MB"

/-- The body of the `try` block of `uploadFile`.  Validation happens before
the single backend `upload` request; the trace of issued backend requests is
the first component. -/
def uploadFileTry (cfg : StoreConfig) (file : MulterFile)
    (options : FileUploadOptions) (timestamp : Nat) (randomString : String)
    (uploadResp : SupaResult Unit) :
    List BackendCall × Except AppError UploadResult :=
  let folder := options.folder.getD "uploads"
  let allowedTypes := options.allowedTypes.getD defaultAllowedTypes
  let maxSize := options.maxSize.getD defaultMaxSize
  if ¬ allowedTypes.contains file.mimetype then
    ([], .error ⟨400, invalidTypeMessage allowedTypes⟩)
  else if maxSize < file.size then
    ([], .error ⟨400, tooLargeMessage maxSize⟩)
  else
    let fileName := uploadedFileName timestamp randomString file.originalname
    let key := uploadKey options.projectName folder fileName
    let call := BackendCall.upload cfg.bucketName key file.buffer
      file.mimetype "3600" false
    match uploadResp with
    | .failure e => ([call], .error ⟨500, "Upload failed: " ++ e.message⟩)
    | .thrown m => ([call], .error ⟨500, m⟩)
    | .success _ =>
        ([call], .ok ⟨cfg.supabaseUrl ++ "/storage/v1/object/public/" ++
          cfg.bucketName ++ "/" ++ key, key, cfg.bucketName, file.size⟩)

/-- The `catch` clause of `uploadFile`: validation errors (recognized by
substring match on the message) are rethrown unchanged, everything else is
wrapped as a 500. -/
def uploadCatch (e : AppError) : AppError :=
  if containsSubstr e.message "Invalid file type" ∨
      containsSubstr e.message "File too large" then e
  else ⟨500, "Failed to upload file: " ++ e.message⟩

/-- The full `uploadFile`: the `try` body with the `catch` clause applied
to its error outcomes. -/
def uploadFile (cfg : StoreConfig) (file : MulterFile)
    (options : FileUploadOptions) (timestamp : Nat) (randomString : String)
    (uploadResp : SupaResult Unit) :
    List BackendCall × Except AppError UploadResult :=
  let r := uploadFileTry cfg file options timestamp randomString uploadResp
  (r.1, match r.2 with
    | .ok v => .ok v
    | .error e => .error (uploadCatch e))

/-- The body of the `try` block of `deleteFile`. -/
def deleteFileTry (cfg : StoreConfig) (key : String)
    (resp : SupaResult Unit) : List BackendCall × Except AppError Unit :=
  let call := BackendCall.remove cfg.bucketName [key]
  match resp with
  | .failure e =>
      ([call], .error ⟨500, "Failed to delete file: " ++ e.message⟩)
  | .thrown m => ([call], .error ⟨500, m⟩)
  | .success _ => ([call], .ok ())

/-- The full `deleteFile`: every error of the `try` body (including the
wrapped backend error) is caught and replaced by the fixed 500 error. -/
def deleteFile (cfg : StoreConfig) (key : String) (resp : SupaResult Unit) :
    List BackendCall × Except AppError Unit :=
  let r := deleteFileTry cfg key resp
  (r.1, match r.2 with
    | .ok v => .ok v
    | .error _ => .error ⟨500, "Failed to delete file from storage"⟩)

/-- The full `getSignedUploadUrl`: the backend request is
`createSignedUploadUrl(key)`; the `expiresIn` parameter is not forwarded.
Every error of the `try` body is caught and replaced by the fixed 500. -/
def getSignedUploadUrl (cfg : StoreConfig) (key contentType : String)
    (expiresIn : Nat) (resp : SupaResult String) :
    List BackendCall × Except AppError String :=
  let call := BackendCall.createSignedUploadUrl cfg.bucketName key
  match resp with
  | .failure _ =>
      ([call], .error ⟨500, "Failed to generate signed upload URL"⟩)
  | .thrown _ =>
      ([call], .error ⟨500, "Failed to generate signed upload URL"⟩)
  | .success url => ([call], .ok url)

/-- The full `fileExists`: lists the parent path of the key with `search` set to the
leaf name; any error (error field or thrown) yields `false`, a null `data`
yields a falsy result, otherwise `data.length > 0`. -/
def fileExists (cfg : StoreConfig) (key : String)
    (resp : SupaResult (Option (List FileObject))) :
    List BackendCall × Bool :=
  let call := BackendCall.list cfg.bucketName (lastSlashSplit key).1
    (some (lastSlashSplit key).2) none none
  match resp with
  | .failure _ => ([call], false)
  | .thrown _ => ([call], false)
  | .success none => ([call], false)
  | .success (some l) => ([call], decide (0 < l.length))

/-- The body of the `try` block of `getFileMetadata`: an error field, null
data or an empty listing throws the 404 `File not found`; the first entry
otherwise becomes the metadata record. -/
def getFileMetadataTry (cfg : StoreConfig) (key : String)
    (resp : SupaResult (Option (List FileObject))) :
    List BackendCall × Except AppError FileMetadataResult :=
  let call := BackendCall.list cfg.bucketName (lastSlashSplit key).1
    (some (lastSlashSplit key).2) none none
  match resp with
  | .failure _ => ([call], .error ⟨404, "File not found"⟩)
  | .thrown m => ([call], .error ⟨500, m⟩)
  | .success none => ([call], .error ⟨404, "File not found"⟩)
  | .success (some []) => ([call], .error ⟨404, "File not found"⟩)
  | .success (some (f :: _)) =>
      ([call], .ok ⟨f.name, (f.metadata).map FileMeta.size, f.updated_at,
        (f.metadata).map FileMeta.mimetype⟩)

/-- The full `getFileMetadata`: the `catch` clause catches every error thrown in the
`try` body, including the 404, and replaces it with the fixed 500. -/
def getFileMetadata (cfg : StoreConfig) (key : String)
    (resp : SupaResult (Option (List FileObject))) :
    List BackendCall × Except AppError FileMetadataResult :=
  let r := getFileMetadataTry cfg key resp
  (r.1, match r.2 with
    | .ok v => .ok v
    | .error _ => .error ⟨500, "Failed to get file metadata"⟩)

/-- The listing path of `listProjectFiles`: `sanitized/folder` for a truthy
`folder`, else just the sanitized project name. -/
def listingRoot (projectName : String) (folder : Option String) : String :=
  let san := sanitizeProjectName projectName
  match folder with
  | some f => if f = "" then san else san ++ "/" ++ f
  | none => san

/-- The full `listProjectFiles`: lists the built path with `limit: 1000` and
ascending sort by name, and maps each entry to `{Key, Size, LastModified}`
with the path prepended to the name.  Errors of the `try` body are caught
and replaced by the fixed 500. -/
def listProjectFiles (cfg : StoreConfig) (projectName : String)
    (folder : Option String) (resp : SupaResult (Option (List FileObject))) :
    List BackendCall × Except AppError (List ListedFile) :=
  let pfx := listingRoot projectName folder
  let call := BackendCall.list cfg.bucketName pfx none (some 1000)
    (some ("name", SortOrder.asc))
  match resp with
  | .failure _ =>
      ([call], .error ⟨500, "Failed to list project files"⟩)
  | .thrown _ =>
      ([call], .error ⟨500, "Failed to list project files"⟩)
  | .success d =>
      ([call], .ok ((d.getD []).map fun f =>
        ⟨pfx ++ "/" ++ f.name, (f.metadata).map FileMeta.size, f.updated_at⟩))

/-- Modelled from the spec: the backend public-URL builder
(`supabase.storage.from(bucket).getPublicUrl(key)`, provided by the backend
SDK outside this repository) only performs string formatting, with no
network call and no error path. -/
def storagePublicUrl (endpoint bucket key : String) : String :=
  endpoint ++ "/storage/v1/object/public/" ++ bucket ++ "/" ++ key

/-- The full `getPublicUrl`: delegates to the pure URL builder; no backend request
is issued and a string is always returned. -/
def getPublicUrl (cfg : StoreConfig) (key : String) :
    List BackendCall × String :=
  ([], storagePublicUrl cfg.supabaseUrl cfg.bucketName key)

/-! Helper lemmas shared by the claim theorems. -/

theorem containsSubstr_of_leading (s sub : String) (h : sub.data <+: s.data) :
    containsSubstr s sub = true := by
  unfold containsSubstr
  rw [decide_eq_true_iff]
  exact ⟨s.data, (List.mem_tails _ _).mpr (List.suffix_refl _), h⟩

theorem uploadCatch_invalidType (ats : List String) :
    uploadCatch ⟨400, invalidTypeMessage ats⟩ = ⟨400, invalidTypeMessage ats⟩ := by
  unfold uploadCatch
  rw [if_pos]
  left
  apply containsSubstr_of_leading
  show ("Invalid file type").data <+: (invalidTypeMessage ats).data
  unfold invalidTypeMessage
  rw [String.data_append]
  exact List.IsPrefix.trans (by decide) (List.prefix_append _ _)

theorem uploadCatch_tooLarge (ms : Nat) :
    uploadCatch ⟨400, tooLargeMessage ms⟩ = ⟨400, tooLargeMessage ms⟩ := by
  unfold uploadCatch
  rw [if_pos]
  right
  apply containsSubstr_of_leading
  show ("File too large").data <+: (tooLargeMessage ms).data
  unfold tooLargeMessage
  rw [String.data_append, String.data_append]
  exact List.IsPrefix.trans (by decide)
    (List.IsPrefix.trans (List.prefix_append _ _) (List.prefix_append _ _))

theorem uploadCatch_status_500 (m : String) :
    (uploadCatch ⟨500, m⟩).status = 500 := by
  unfold uploadCatch
  split <;> rfl

theorem invalidTypeMessage_ne_tooLargeMessage (ats : List String) (ms : Nat) :
    invalidTypeMessage ats ≠ tooLargeMessage ms := by
  intro h
  have h2 := congrArg String.data h
  unfold invalidTypeMessage tooLargeMessage at h2
  rw [String.data_append, String.data_append, String.data_append] at h2
  have e1 : ("Invalid file type. Allowed types: ").data =
      'I' :: ("nvalid file type. Allowed types: ").data := rfl
  have e2 : ("File too large. Maximum size: ").data =
      'F' :: ("ile too large. Maximum size: ").data := rfl
  rw [e1, e2, List.cons_append, List.cons_append, List.cons_append] at h2
  exact absurd (List.head_eq_of_cons_eq h2) (by decide)

/-- C4: the sanitization used in key construction lowercases the name and
replaces each character outside lowercase alphanumeric and hyphen
individually with a hyphen, without collapsing consecutive replacements
(length is preserved); sanitizing "My Project!" yields exactly
"my-project-". -/
theorem sanitizeProjectName_spec :
    sanitizeProjectName "My Project!" = "my-project-" ∧
    (∀ s : String, (sanitizeProjectName s).length = s.length) ∧
    (∀ s : String, ∀ c ∈ (sanitizeProjectName s).data,
      ('a' ≤ c ∧ c ≤ 'z') ∨ ('0' ≤ c ∧ c ≤ '9') ∨ c = '-') := by
  refine ⟨by decide, ?_, ?_⟩
  · intro s
    show ((s.data.map Char.toLower).map sanitizeChar).length = s.data.length
    simp
  · intro s c hc
    have hc2 : c ∈ (s.data.map Char.toLower).map sanitizeChar := hc
    rw [List.mem_map] at hc2
    obtain ⟨b, _, rfl⟩ := hc2
    unfold sanitizeChar
    split
    · assumption
    · right; right; rfl

/-- C4 witness at a concrete input. -/
theorem sanitizeProjectName_spec_witness :
    sanitizeProjectName "My Project!" = "my-project-" ∧
    (sanitizeProjectName "My Project!").length = ("My Project!" : String).length ∧
    (('a' ≤ 'm' ∧ 'm' ≤ 'z') ∨ ('0' ≤ 'm' ∧ 'm' ≤ '9') ∨ 'm' = '-') :=
  ⟨sanitizeProjectName_spec.1,
   sanitizeProjectName_spec.2.1 "My Project!",
   sanitizeProjectName_spec.2.2 "My Project!" 'm' (by decide)⟩

/-- C5: the result of `getSignedUploadUrl` is independent of its
`expiresIn` argument: two calls differing only in `expiresIn` issue the
same backend request and produce the same result, because `expiresIn` is
accepted but never forwarded. -/
theorem getSignedUploadUrl_ignores_expiresIn (cfg : StoreConfig)
    (key contentType : String) (e1 e2 : Nat) (resp : SupaResult String) :
    getSignedUploadUrl cfg key contentType e1 resp =
      getSignedUploadUrl cfg key contentType e2 resp := rfl

/-- C6 counterexample: for the backend error message "boom", the error
surfaced by `deleteFile` is the fixed 500 message, which does not contain
the original backend error text. -/
theorem deleteFile_drops_backend_message :
    (deleteFile ⟨"https://x.supabase.co", "project-assets"⟩
        "proj/uploads/a.png" (.failure ⟨"boom"⟩)).2 =
      .error ⟨500, "Failed to delete file from storage"⟩ ∧
    containsSubstr "Failed to delete file from storage" "boom" = false :=
  ⟨rfl, by decide⟩

/-- C6 amended: every backend error (error field or thrown exception) of
`deleteFile` is surfaced as a 500 error with the fixed message
"Failed to delete file from storage"; the original backend error text is
not part of the surfaced error (the inner wrapped message is replaced by
the catch clause). -/
theorem deleteFile_error_spec (cfg : StoreConfig) (key : String)
    (e : SupaError) (m : String) :
    (deleteFile cfg key (.failure e)).2 =
      .error ⟨500, "Failed to delete file from storage"⟩ ∧
    (deleteFile cfg key (.thrown m)).2 =
      .error ⟨500, "Failed to delete file from storage"⟩ :=
  ⟨rfl, rfl⟩

/-- C1: at a key whose listing succeeds with an empty result, the `try`
body of `getFileMetadata` does build the 404 `File not found` error, but
the catch clause replaces it, so the surfaced error is the 500
`Failed to get file metadata`, not a 404. -/
theorem getFileMetadata_empty_listing_is_500 :
    (getFileMetadataTry ⟨"https://x.supabase.co", "project-assets"⟩
        "proj/uploads/a.png" (.success (some []))).2 =
      .error ⟨404, "File not found"⟩ ∧
    (getFileMetadata ⟨"https://x.supabase.co", "project-assets"⟩
        "proj/uploads/a.png" (.success (some []))).2 =
      .error ⟨500, "Failed to get file metadata"⟩ ∧
    (getFileMetadata ⟨"https://x.supabase.co", "project-assets"⟩
        "proj/uploads/a.png" (.failure ⟨"backend down"⟩)).2 =
      .error ⟨500, "Failed to get file metadata"⟩ :=
  ⟨rfl, rfl, rfl⟩

/-- C7: `exists` issues one listing request for the parent path of the key
with the leaf name as search filter; on a successful non-null listing it
returns true iff the listing is non-empty, and it returns false (never
raising) on a backend error field or a thrown exception such as an
unreachable backend. -/
theorem fileExists_spec (cfg : StoreConfig) (key : String)
    (resp : SupaResult (Option (List FileObject))) :
    (fileExists cfg key resp).1 =
      [BackendCall.list cfg.bucketName (lastSlashSplit key).1
        (some (lastSlashSplit key).2) none none] ∧
    (∀ l, resp = .success (some l) →
      ((fileExists cfg key resp).2 = true ↔ l ≠ [])) ∧
    (∀ e, resp = .failure e → (fileExists cfg key resp).2 = false) ∧
    (∀ m, resp = .thrown m → (fileExists cfg key resp).2 = false) := by
  refine ⟨?_, ?_, ?_, ?_⟩
  · cases resp with
    | success d => cases d <;> rfl
    | failure e => rfl
    | thrown m => rfl
  · rintro l rfl
    show (decide (0 < l.length) = true) ↔ l ≠ []
    rw [decide_eq_true_iff]
    exact List.length_pos
  · rintro e rfl; rfl
  · rintro m rfl; rfl

/-- C7 witness at a concrete key and concrete backend responses. -/
theorem fileExists_spec_witness :
    (fileExists ⟨"https://x.supabase.co", "project-assets"⟩ "proj/a.png"
        (.success (some [⟨"a.png", "2024-01-01", none⟩]))).2 = true ∧
    (fileExists ⟨"https://x.supabase.co", "project-assets"⟩ "proj/a.png"
        (.thrown "backend unreachable")).2 = false :=
  ⟨((fileExists_spec ⟨"https://x.supabase.co", "project-assets"⟩ "proj/a.png"
      (.success (some [⟨"a.png", "2024-01-01", none⟩]))).2.1 _ rfl).mpr
      (by decide),
   (fileExists_spec ⟨"https://x.supabase.co", "project-assets"⟩ "proj/a.png"
      (.thrown "backend unreachable")).2.2.2 _ rfl⟩

/-- C8: `getPublicUrl` is deterministic (equal keys give equal results),
issues no backend request, and always returns the pure string-formatted
URL (no error path). -/
theorem getPublicUrl_spec (cfg : StoreConfig) (k1 k2 : String) :
    (k1 = k2 → getPublicUrl cfg k1 = getPublicUrl cfg k2) ∧
    (getPublicUrl cfg k1).1 = [] ∧
    (getPublicUrl cfg k1).2 =
      storagePublicUrl cfg.supabaseUrl cfg.bucketName k1 :=
  ⟨fun h => by rw [h], rfl, rfl⟩

/-- C8 witness at a concrete key. -/
theorem getPublicUrl_spec_witness :
    getPublicUrl ⟨"https://x.supabase.co", "project-assets"⟩ "demo/a.png" =
      getPublicUrl ⟨"https://x.supabase.co", "project-assets"⟩ "demo/a.png" ∧
    (getPublicUrl ⟨"https://x.supabase.co", "project-assets"⟩
      "demo/a.png").1 = [] :=
  ⟨(getPublicUrl_spec ⟨"https://x.supabase.co", "project-assets"⟩
      "demo/a.png" "demo/a.png").1 rfl,
   (getPublicUrl_spec ⟨"https://x.supabase.co", "project-assets"⟩
      "demo/a.png" "demo/a.png").2.1⟩

/-! Shared helper lemmas about the validation phase of `uploadFile`. -/

theorem uploadFile_type_error (cfg : StoreConfig) (file : MulterFile)
    (options : FileUploadOptions) (timestamp : Nat) (randomString : String)
    (uploadResp : SupaResult Unit)
    (h : (options.allowedTypes.getD defaultAllowedTypes).contains
      file.mimetype = false) :
    uploadFile cfg file options timestamp randomString uploadResp =
      ([], .error ⟨400,
        invalidTypeMessage (options.allowedTypes.getD defaultAllowedTypes)⟩) := by
  have hTry : uploadFileTry cfg file options timestamp randomString uploadResp =
      ([], .error ⟨400,
        invalidTypeMessage (options.allowedTypes.getD defaultAllowedTypes)⟩) := by
    unfold uploadFileTry
    simp only [h]
    rfl
  unfold uploadFile
  rw [hTry]
  show ([], (Except.error (uploadCatch ⟨400,
    invalidTypeMessage (options.allowedTypes.getD defaultAllowedTypes)⟩) :
      Except AppError UploadResult)) = _
  rw [uploadCatch_invalidType]

theorem uploadFile_too_large (cfg : StoreConfig) (file : MulterFile)
    (options : FileUploadOptions) (timestamp : Nat) (randomString : String)
    (uploadResp : SupaResult Unit)
    (h1 : (options.allowedTypes.getD defaultAllowedTypes).contains
      file.mimetype = true)
    (h2 : options.maxSize.getD defaultMaxSize < file.size) :
    uploadFile cfg file options timestamp randomString uploadResp =
      ([], .error ⟨400,
        tooLargeMessage (options.maxSize.getD defaultMaxSize)⟩) := by
  have hm : file.mimetype ∈ options.allowedTypes.getD defaultAllowedTypes := by
    simpa using h1
  have hTry : uploadFileTry cfg file options timestamp randomString uploadResp =
      ([], .error ⟨400,
        tooLargeMessage (options.maxSize.getD defaultMaxSize)⟩) := by
    unfold uploadFileTry
    simp [hm, h2]
  unfold uploadFile
  rw [hTry]
  show ([], (Except.error (uploadCatch ⟨400,
    tooLargeMessage (options.maxSize.getD defaultMaxSize)⟩) :
      Except AppError UploadResult)) = _
  rw [uploadCatch_tooLarge]

theorem uploadFile_after_validation (cfg : StoreConfig) (file : MulterFile)
    (options : FileUploadOptions) (timestamp : Nat) (randomString : String)
    (uploadResp : SupaResult Unit)
    (h1 : (options.allowedTypes.getD defaultAllowedTypes).contains
      file.mimetype = true)
    (h2 : ¬ options.maxSize.getD defaultMaxSize < file.size) :
    (uploadFile cfg file options timestamp randomString uploadResp).1 =
      [BackendCall.upload cfg.bucketName
        (uploadKey options.projectName (options.folder.getD "uploads")
          (uploadedFileName timestamp randomString file.originalname))
        file.buffer file.mimetype "3600" false] ∧
    ((∃ v, (uploadFile cfg file options timestamp randomString uploadResp).2 =
        .ok v) ∨
     (∃ m, (uploadFile cfg file options timestamp randomString uploadResp).2 =
        .error (uploadCatch ⟨500, m⟩))) := by
  have hm : file.mimetype ∈ options.allowedTypes.getD defaultAllowedTypes := by
    simpa using h1
  refine ⟨?_, ?_⟩
  · cases uploadResp <;> simp [uploadFile, uploadFileTry, hm, h2]
  · cases uploadResp with
    | failure e =>
        right
        exact ⟨"Upload failed: " ++ e.message,
          by simp [uploadFile, uploadFileTry, hm, h2]⟩
    | thrown m =>
        right
        exact ⟨m, by simp [uploadFile, uploadFileTry, hm, h2]⟩
    | success u =>
        left
        refine ⟨⟨cfg.supabaseUrl ++ "/storage/v1/object/public/" ++
          cfg.bucketName ++ "/" ++
          uploadKey options.projectName (options.folder.getD "uploads")
            (uploadedFileName timestamp randomString file.originalname),
          uploadKey options.projectName (options.folder.getD "uploads")
            (uploadedFileName timestamp randomString file.originalname),
          cfg.bucketName, file.size⟩, ?_⟩
        simp [uploadFile, uploadFileTry, hm, h2]

/-- C2: for every MIME type not contained in the effective allowed list
(the fixed default set of four image types when the option is absent),
`uploadFile` raises the 400 validation error and issues no backend
request. -/
theorem uploadFile_invalid_type (cfg : StoreConfig) (file : MulterFile)
    (options : FileUploadOptions) (timestamp : Nat) (randomString : String)
    (uploadResp : SupaResult Unit)
    (h : (options.allowedTypes.getD defaultAllowedTypes).contains
      file.mimetype = false) :
    uploadFile cfg file options timestamp randomString uploadResp =
      ([], .error ⟨400,
        invalidTypeMessage (options.allowedTypes.getD defaultAllowedTypes)⟩) :=
  uploadFile_type_error cfg file options timestamp randomString uploadResp h

/-- C2 witness: a text/plain upload with default options. -/
theorem uploadFile_invalid_type_witness :
    uploadFile ⟨"https://x.supabase.co", "project-assets"⟩
        ⟨"a.txt", "text/plain", 10, [1, 2]⟩ {} 1700000000000 "abc"
        (.success ()) =
      ([], .error ⟨400, invalidTypeMessage defaultAllowedTypes⟩) :=
  uploadFile_invalid_type ⟨"https://x.supabase.co", "project-assets"⟩
    ⟨"a.txt", "text/plain", 10, [1, 2]⟩ {} 1700000000000 "abc"
    (.success ()) (by decide)

/-- C3: for every declared size above the effective `maxSize` (5 MiB by
default), `uploadFile` raises a 400 validation error and issues no backend
request; a size at or below the limit never triggers the too-large
validation error. -/
theorem uploadFile_size_validation (cfg : StoreConfig) (file : MulterFile)
    (options : FileUploadOptions) (timestamp : Nat) (randomString : String)
    (uploadResp : SupaResult Unit) :
    (options.maxSize.getD defaultMaxSize < file.size →
      (uploadFile cfg file options timestamp randomString uploadResp).1 = [] ∧
      ∃ m, (uploadFile cfg file options timestamp randomString uploadResp).2 =
        .error ⟨400, m⟩) ∧
    (file.size ≤ options.maxSize.getD defaultMaxSize →
      (uploadFile cfg file options timestamp randomString uploadResp).2 ≠
        .error ⟨400, tooLargeMessage (options.maxSize.getD defaultMaxSize)⟩) := by
  constructor
  · intro hs
    by_cases hc : (options.allowedTypes.getD defaultAllowedTypes).contains
        file.mimetype
    · rw [uploadFile_too_large cfg file options timestamp randomString
        uploadResp hc hs]
      exact ⟨rfl, _, rfl⟩
    · rw [uploadFile_type_error cfg file options timestamp randomString
        uploadResp (Bool.not_eq_true _ ▸ hc)]
      exact ⟨rfl, _, rfl⟩
  · intro hs
    by_cases hc : (options.allowedTypes.getD defaultAllowedTypes).contains
        file.mimetype
    · have h2 : ¬ options.maxSize.getD defaultMaxSize < file.size :=
        Nat.not_lt.mpr hs
      rcases (uploadFile_after_validation cfg file options timestamp
          randomString uploadResp hc h2).2 with ⟨v, hv⟩ | ⟨m, hm⟩
      · rw [hv]
        intro h
        exact Except.noConfusion h
      · rw [hm]
        intro h
        have h3 : uploadCatch ⟨500, m⟩ =
            (⟨400, tooLargeMessage (options.maxSize.getD defaultMaxSize)⟩ :
              AppError) := by
          injection h
        have h4 := congrArg AppError.status h3
        rw [uploadCatch_status_500] at h4
        simp at h4
    · rw [uploadFile_type_error cfg file options timestamp randomString
        uploadResp (Bool.not_eq_true _ ▸ hc)]
      intro h
      have h3 : invalidTypeMessage (options.allowedTypes.getD
          defaultAllowedTypes) =
          tooLargeMessage (options.maxSize.getD defaultMaxSize) := by
        have h5 : (⟨400, invalidTypeMessage (options.allowedTypes.getD
            defaultAllowedTypes)⟩ : AppError) =
            ⟨400, tooLargeMessage (options.maxSize.getD defaultMaxSize)⟩ := by
          injection h
        injection h5
      exact invalidTypeMessage_ne_tooLargeMessage _ _ h3

/-- C3 witness: a 6 MB image/png upload is rejected with no backend
request, and a 10-byte one does not trigger the too-large error. -/
theorem uploadFile_size_validation_witness :
    ((uploadFile ⟨"https://x.supabase.co", "project-assets"⟩
        ⟨"a.png", "image/png", 6291456, []⟩ {} 1700000000000 "abc"
        (.success ())).1 = [] ∧
      ∃ m, (uploadFile ⟨"https://x.supabase.co", "project-assets"⟩
        ⟨"a.png", "image/png", 6291456, []⟩ {} 1700000000000 "abc"
        (.success ())).2 = .error ⟨400, m⟩) ∧
    (uploadFile ⟨"https://x.supabase.co", "project-assets"⟩
        ⟨"a.png", "image/png", 10, []⟩ {} 1700000000000 "abc"
        (.success ())).2 ≠
      .error ⟨400, tooLargeMessage defaultMaxSize⟩ :=
  ⟨(uploadFile_size_validation ⟨"https://x.supabase.co", "project-assets"⟩
      ⟨"a.png", "image/png", 6291456, []⟩ {} 1700000000000 "abc"
      (.success ())).1 (by decide),
   (uploadFile_size_validation ⟨"https://x.supabase.co", "project-assets"⟩
      ⟨"a.png", "image/png", 10, []⟩ {} 1700000000000 "abc"
      (.success ())).2 (by decide)⟩

/-- C9: `listProjectFiles` sanitizes the project name with the same
`sanitizeProjectName` function used by `uploadFile` key construction,
issues one listing request with limit 1000 sorted ascending by name, and
on success returns entries whose `Key` is the built path prepended to each
entry name, so every returned key has the built path as a prefix. -/
theorem listProjectFiles_spec (cfg : StoreConfig) (projectName : String)
    (folder : Option String) (resp : SupaResult (Option (List FileObject))) :
    (listProjectFiles cfg projectName folder resp).1 =
      [BackendCall.list cfg.bucketName
        (match folder with
          | some f => if f = "" then sanitizeProjectName projectName
              else sanitizeProjectName projectName ++ "/" ++ f
          | none => sanitizeProjectName projectName)
        none (some 1000) (some ("name", SortOrder.asc))] ∧
    (∀ l, resp = .success (some l) →
      (listProjectFiles cfg projectName folder resp).2 =
        .ok (l.map fun f =>
          ⟨listingRoot projectName folder ++ "/" ++ f.name,
           (f.metadata).map FileMeta.size, f.updated_at⟩)) ∧
    (∀ ks, (listProjectFiles cfg projectName folder resp).2 = .ok ks →
      ∀ e ∈ ks, ∃ rest,
        e.Key = listingRoot projectName folder ++ "/" ++ rest) := by
  refine ⟨?_, ?_, ?_⟩
  · cases resp <;> cases folder <;> simp [listProjectFiles, listingRoot]
  · rintro l rfl
    rfl
  · intro ks h e he
    cases resp with
    | failure er => exact absurd h (by simp [listProjectFiles])
    | thrown m => exact absurd h (by simp [listProjectFiles])
    | success d =>
        have h2 : (d.getD []).map (fun f =>
            (⟨listingRoot projectName folder ++ "/" ++ f.name,
              (f.metadata).map FileMeta.size, f.updated_at⟩ : ListedFile)) =
            ks := by
          have h3 : (listProjectFiles cfg projectName folder
              (.success d)).2 = .ok ((d.getD []).map fun f =>
                (⟨listingRoot projectName folder ++ "/" ++ f.name,
                  (f.metadata).map FileMeta.size, f.updated_at⟩ :
                  ListedFile)) := rfl
          rw [h3] at h
          exact Except.ok.inj h
        rw [← h2] at he
        rcases List.mem_map.mp he with ⟨f, _, rfl⟩
        exact ⟨f.name, rfl⟩

/-- C9 witness: listing project "Proj", folder "videos", with one entry in
the backend response; the returned key has path "proj/videos" as built by
the sanitizer. -/
theorem listProjectFiles_spec_witness :
    (listProjectFiles ⟨"https://x.supabase.co", "project-assets"⟩ "Proj"
        (some "videos")
        (.success (some [⟨"a.mp4", "2024-01-01", none⟩]))).2 =
      .ok [⟨listingRoot "Proj" (some "videos") ++ "/" ++ "a.mp4", none,
        "2024-01-01"⟩] ∧
    ∃ rest, (⟨"proj/videos/a.mp4", none, "2024-01-01"⟩ : ListedFile).Key =
      listingRoot "Proj" (some "videos") ++ "/" ++ rest :=
  ⟨(listProjectFiles_spec ⟨"https://x.supabase.co", "project-assets"⟩ "Proj"
      (some "videos") (.success (some [⟨"a.mp4", "2024-01-01", none⟩]))).2.1
      [⟨"a.mp4", "2024-01-01", none⟩] rfl,
   (listProjectFiles_spec ⟨"https://x.supabase.co", "project-assets"⟩ "Proj"
      (some "videos") (.success (some [⟨"a.mp4", "2024-01-01", none⟩]))).2.2
      [⟨listingRoot "Proj" (some "videos") ++ "/" ++ "a.mp4", none,
        "2024-01-01"⟩]
      ((listProjectFiles_spec ⟨"https://x.supabase.co", "project-assets"⟩
        "Proj" (some "videos")
        (.success (some [⟨"a.mp4", "2024-01-01", none⟩]))).2.1
        [⟨"a.mp4", "2024-01-01", none⟩] rfl)
      ⟨"proj/videos/a.mp4", none, "2024-01-01"⟩ (by decide)⟩

/-- The filename split on dots collapses to the whole filename when it
contains no dot. -/
theorem fileExtension_no_dot (name : String)
    (h : ∀ c ∈ name.data, c ≠ '.') : fileExtension name = name := by
  unfold fileExtension
  have hs : name.data.splitOn '.' = [name.data] := by
    show name.data.splitOnP (· == '.') = [name.data]
    apply List.splitOnP_eq_single
    intro x hx
    simp only [beq_iff_eq]
    exact h x hx
  rw [hs]
  rfl

/-- C10: for an original filename with no dot, the extension segment of the
generated key is the entire original filename, so the key ends with a dot
followed by the full original filename. -/
theorem uploadKey_no_dot_extension (name : String)
    (h : ∀ c ∈ name.data, c ≠ '.') :
    fileExtension name = name ∧
    ∀ (projectName : Option String) (folder : String) (timestamp : Nat)
      (randomString : String), ∃ p,
        uploadKey projectName folder
          (uploadedFileName timestamp randomString name) =
          p ++ ("." ++ name) := by
  have he := fileExtension_no_dot name h
  refine ⟨he, ?_⟩
  intro projectName folder timestamp randomString
  cases projectName with
  | none =>
      exact ⟨folder ++ "/" ++ (toString timestamp ++ "-" ++ randomString),
        by simp [uploadKey, uploadedFileName, he, String.append_assoc]⟩
  | some pn =>
      by_cases hpn : pn = ""
      · subst hpn
        exact ⟨folder ++ "/" ++ (toString timestamp ++ "-" ++ randomString),
          by simp [uploadKey, uploadedFileName, he, String.append_assoc]⟩
      · exact ⟨sanitizeProjectName pn ++ "/" ++ folder ++ "/" ++
            (toString timestamp ++ "-" ++ randomString),
          by simp [uploadKey, uploadedFileName, he, hpn,
            String.append_assoc]⟩

/-- C10 witness: the dotless filename "archive". -/
theorem uploadKey_no_dot_extension_witness :
    fileExtension "archive" = "archive" ∧
    ∃ p, uploadKey (some "My Project!") "uploads"
        (uploadedFileName 1700000000000 "x7k" "archive") =
      p ++ ("." ++ "archive") :=
  ⟨(uploadKey_no_dot_extension "archive" (by decide)).1,
   (uploadKey_no_dot_extension "archive" (by decide)).2 (some "My Project!")
     "uploads" 1700000000000 "x7k"⟩
